import Mathlib

/-!
Verification development for the tender-response scoring and matching
subsystem of the `ey_fmgc_agents` repository.

The Python source is shallowly embedded:
* Python floats are modelled as rationals (`ℚ`); `round(x, 2)` is modelled
  by `round2` below.
* Python strings are Lean `String`s; the relevant operations (`lower`,
  `strip`, `re.sub`, substring `in`) are defined character by character on
  ASCII text, matching CPython semantics on ASCII input.
* The product catalog is passed explicitly (the source loads it from disk
  with a hard-coded mock fallback; `mock_database` below is that fallback
  table, which is what the pipeline uses when the spreadsheet is absent).
* `math.exp`, `math.sqrt` and the random margin draw have no exact rational
  counterpart; they enter as explicit function/value parameters
  (`expQ`, `sqrtQ`, `draw`), as the spec itself demands for the random
  source.
* `datetime.now()` / deadline parsing are abstracted into an
  `Option Int` parameter holding the signed number of days until the
  deadline (`none` when the deadline is missing or unparseable).
* The one place the source can raise (`score_compliance`, line 376 of
  `scoring_agent/agent.py`, an attribute access on the result of `str`)
  is modelled with `Except String`.
-/

/-- `round(x, 2)` of CPython, modelled on `ℚ`: round to two decimal places
(ties rounded up; CPython breaks exact ties to even, a difference that is
never exercised by the concrete values in this development). -/
def round2 (x : ℚ) : ℚ := (Int.floor (x * 100 + 1/2) : ℚ) / 100

/-- ASCII whitespace, the characters matched by `\s` / `str.strip` /
`str.isspace` on ASCII text. -/
def isSpc (c : Char) : Bool :=
  c == ' ' || c == '\t' || c == '\n' || c == '\r' || c == '\x0b' || c == '\x0c'

/-- A character kept by `re.sub(r'[^\w\s]', ' ', _)`, i.e. matched by `\w`
on ASCII text: alphanumeric or underscore. -/
def isWordChar (c : Char) : Bool := c.isAlphanum || c == '_'

/-- `str.lower` on ASCII text, character by character. -/
def lowerL (l : List Char) : List Char := l.map Char.toLower

/-- `str.strip()` : drop whitespace from both ends. -/
def stripL (l : List Char) : List Char :=
  ((l.dropWhile isSpc).reverse.dropWhile isSpc).reverse

/-- `re.sub(r'[^\w\s]', ' ', _)` : replace every character that is neither
a word character nor whitespace by a single space. -/
def subPunct (l : List Char) : List Char :=
  l.map (fun c => if isWordChar c || isSpc c then c else ' ')

/-- Worker for `re.sub(r'\s+', ' ', _)`: the flag records whether the
previous character belonged to a whitespace run already replaced. -/
def collapseGo : Bool → List Char → List Char
  | _, [] => []
  | b, c :: r =>
    if isSpc c then
      if b then collapseGo true r else ' ' :: collapseGo true r
    else c :: collapseGo false r

/-- `re.sub(r'\s+', ' ', _)` : collapse each whitespace run to one space. -/
def collapseWs (l : List Char) : List Char := collapseGo false l

/-- `normalize_text` from `technical_agent/agent.py` (lines 97-114):
empty input short-circuits, otherwise lower-case, strip, replace
non-word/non-space characters by spaces, collapse whitespace runs.
Note the strip happens before the punctuation substitution. -/
def normalize_text (s : String) : String :=
  if s = "" then ""
  else ⟨collapseWs (subPunct (stripL (lowerL s.data)))⟩

/-- Python `str.strip()` on a whole string (used to state how
`normalize_text` falls short of idempotence). -/
def pyStrip (s : String) : String := ⟨stripL s.data⟩

/-- Python's substring test `needle in hay` on lists of characters;
the empty needle is contained in everything. -/
def isSubstrL (needle : List Char) : List Char → Bool
  | [] => needle.isEmpty
  | c :: rest => needle.isPrefixOf (c :: rest) || isSubstrL needle rest

/-- Python's substring test `needle in hay` on strings. -/
def isSubstrS (needle hay : String) : Bool := isSubstrL needle.data hay.data

/-- Python `str.lower()` on a whole string. -/
def strToLower (s : String) : String := ⟨lowerL s.data⟩

/-! ## Catalog data model (`Product_ID` … columns of the OEM spreadsheet) -/

/-- One catalog row, with the columns used by the matching, pricing and
scoring agents (`_create_mock_database` in `technical_agent/agent.py`). -/
structure Product where
  Product_ID : String
  Product_Name : String
  Category : String
  Voltage_Rating : String
  Standards_Compliance : String
  Conductor_Material : String
  Insulation_Type : String
  Number_of_Cores : Nat
  Armoring : String
  Unit_Price_INR_per_meter : ℚ
  Lead_Time_Days : ℚ
  BIS_Certified : Bool
  Min_Order_Qty_Meters : ℚ
  Warranty_Years : ℚ
deriving DecidableEq, Repr

/-- The mock catalog that `load_product_database` falls back to when the
spreadsheet is absent (identical across the three agents that load it). -/
def mock_database : List Product :=
  [ ⟨"PROD_001", "11kV XLPE 3-Core Cu Cable", "Power Cables", "11kV",
     "IS 7098, IEC 60502", "Copper", "XLPE", 3, "SWA", 1200, 30, true, 1000, 2⟩,
    ⟨"PROD_002", "11kV XLPE 4-Core Cu Cable", "Power Cables", "11kV",
     "IS 7098, IEC 60502", "Copper", "XLPE", 4, "SWA", 1500, 35, true, 1000, 2⟩,
    ⟨"PROD_003", "33kV XLPE 3-Core Al Cable", "Power Cables", "33kV",
     "IS 7098, IEC 60502", "Aluminum", "XLPE", 3, "SWA", 2000, 45, true, 1500, 3⟩,
    ⟨"PROD_004", "11kV PVC 3-Core Cu Cable", "Power Cables", "11kV",
     "IS 7098, IEC 60502", "Copper", "PVC", 3, "None", 800, 25, true, 800, 1⟩,
    ⟨"PROD_005", "6.6kV XLPE 3-Core Cu Cable", "Power Cables", "6.6kV",
     "IS 7098, IEC 60502", "Copper", "XLPE", 3, "SWA", 1000, 28, true, 1000, 2⟩ ]

/-! ## Technical agent (`technical_agent/agent.py`) -/

/-- `MATERIAL_SYNONYMS` (lines 20-24). -/
def MATERIAL_SYNONYMS : List (String × List String) :=
  [ ("copper", ["cu", "copper", "coppper"]),
    ("aluminum", ["al", "aluminium", "aluminum", "alumunium"]),
    ("steel", ["st", "steel", "stl"]) ]

/-- `INSULATION_SYNONYMS` (lines 26-30). -/
def INSULATION_SYNONYMS : List (String × List String) :=
  [ ("xlpe", ["xlpe", "cross-linked polyethylene", "cross linked polyethylene"]),
    ("pvc", ["pvc", "polyvinyl chloride", "poly vinyl chloride"]),
    ("epr", ["epr", "ethylene propylene rubber"]) ]

/-- `fuzzy_match` (lines 120-147): direct substring test on normalized
strings, otherwise scan each synonym group; a group fires when the
normalized value is one of its variants or contains one of its variants,
and one of its variants occurs in the normalized text. -/
def fuzzy_match (value text : String) (synonyms : List (String × List String)) : Bool :=
  let norm_value := normalize_text value
  let norm_text := normalize_text text
  if isSubstrS norm_value norm_text then true
  else
    synonyms.any (fun g =>
      (g.2.contains norm_value || g.2.any (fun v => isSubstrS v norm_value)) &&
      g.2.any (fun v => isSubstrS v norm_text))

/-- The six per-component scores of one product; each is 0 or 100 except
`standards`, which has a 60-point partial-credit branch. -/
structure ComponentScores where
  voltage : ℚ
  standards : ℚ
  conductor : ℚ
  insulation : ℚ
  cores : ℚ
  armoring : ℚ
deriving DecidableEq, Repr

/-- `calculate_component_scores` (lines 180-237). `rfp_text` is the
already-normalized requirement text, as produced by `flatten_rfp_specs`. -/
def calculate_component_scores (p : Product) (rfp_text : String) : ComponentScores :=
  let voltage : ℚ := if isSubstrS (normalize_text p.Voltage_Rating) rfp_text then 100 else 0
  let standards : ℚ :=
    if isSubstrS (normalize_text p.Standards_Compliance) rfp_text then 100
    else if ["is", "iec", "ieee", "bis"].any (fun std => isSubstrS std rfp_text) then 60
    else 0
  let conductor : ℚ := if fuzzy_match p.Conductor_Material rfp_text MATERIAL_SYNONYMS then 100 else 0
  let insulation : ℚ := if fuzzy_match p.Insulation_Type rfp_text INSULATION_SYNONYMS then 100 else 0
  let coresStr := toString p.Number_of_Cores
  let cores : ℚ :=
    if isSubstrS coresStr rfp_text || isSubstrS (coresStr ++ "c") rfp_text
        || isSubstrS (coresStr ++ " core") rfp_text then 100 else 0
  let armoring : ℚ := if isSubstrS (normalize_text p.Armoring) rfp_text then 100 else 0
  ⟨voltage, standards, conductor, insulation, cores, armoring⟩

/-- `calculate_weighted_score` (lines 243-258), with the `SPEC_WEIGHTS`
table (voltage .25, standards .20, conductor .18, insulation .15,
cores .12, armoring .10) folded in. -/
def calculate_weighted_score (cs : ComponentScores) : ℚ :=
  round2 (cs.voltage * (25/100) + cs.standards * (20/100) + cs.conductor * (18/100)
    + cs.insulation * (15/100) + cs.cores * (12/100) + cs.armoring * (10/100))

/-- The `technical_brief` dict: the two free-text fields read by
`flatten_rfp_specs`; `none` models a missing/falsy brief. -/
structure TechnicalBrief where
  scope_of_supply : String
  technical_specifications : String
deriving DecidableEq, Repr

/-- `flatten_rfp_specs` (lines 153-174): concatenate the two sections with
a space and normalize. -/
def flatten_rfp_specs : Option TechnicalBrief → String
  | none => ""
  | some b => normalize_text (b.scope_of_supply ++ " " ++ b.technical_specifications)

/-- One entry of the matcher's result list (lines 322-337). -/
structure MatchEntry where
  product_id : String
  sku : String
  product_name : String
  category : String
  spec_match_percent : ℚ
  component_scores : ComponentScores
  unit_price : ℚ
  lead_time_days : ℚ
  bis_certified : Bool
  voltage_rating : String
  conductor_material : String
  insulation_type : String
  number_of_cores : Nat
deriving DecidableEq, Repr

/-- The result entry built from one catalog row (the row has no `SKU`
column, so `sku` falls back to `Product_ID`). -/
def mkMatchEntry (p : Product) (w : ℚ) (cs : ComponentScores) : MatchEntry :=
  ⟨p.Product_ID, p.Product_ID, p.Product_Name, p.Category, w, cs,
   p.Unit_Price_INR_per_meter, p.Lead_Time_Days, p.BIS_Certified,
   p.Voltage_Rating, p.Conductor_Material, p.Insulation_Type, p.Number_of_Cores⟩

/-- The filtered (not yet sorted) candidate list built by the main loop of
`match_products_advanced` (lines 313-337): score every product, keep the
ones at or above the threshold, in catalog order. -/
def candidate_matches (db : List Product) (rfp_text : String) (min_score : ℚ) : List MatchEntry :=
  db.filterMap (fun p =>
    let cs := calculate_component_scores p rfp_text
    let w := calculate_weighted_score cs
    if min_score ≤ w then some (mkMatchEntry p w cs) else none)

/-- The stable descending sort on `spec_match_percent` performed by
`matches.sort(key=..., reverse=True)` (CPython's sort is stable; insertion
sort with this relation realizes the same stable descending order). -/
def sortByScoreDesc (l : List MatchEntry) : List MatchEntry :=
  l.insertionSort (fun a b => b.spec_match_percent ≤ a.spec_match_percent)

/-- `match_products_advanced` (lines 264-343), with the catalog passed
explicitly in place of `load_product_database()`. -/
def match_products_advanced (db : List Product) (brief : Option TechnicalBrief)
    (min_score : ℚ) (max_results : ℕ) : List MatchEntry :=
  match brief with
  | none => []
  | some b =>
    if db = [] then []
    else
      let rfp_text := flatten_rfp_specs (some b)
      if rfp_text = "" then []
      else (sortByScoreDesc (candidate_matches db rfp_text min_score)).take max_results

/-! ## Pricing agent (`pricing_agent/agent.py`) -/

/-- The dict returned by `get_product_pricing` (lines 58-95). -/
structure PricingInfo where
  found : Bool
  unit_price : ℚ
  min_order_qty : ℚ
  fallback_estimate : ℚ
deriving DecidableEq, Repr

/-- `get_product_pricing` (lines 58-95), with the catalog passed
explicitly: not-found products carry the 50,000 fallback estimate. -/
def get_product_pricing (db : List Product) (product_id : String) : PricingInfo :=
  if db = [] then ⟨false, 0, 0, 50000⟩
  else
    match db.find? (fun p => p.Product_ID == product_id) with
    | none => ⟨false, 0, 0, 50000⟩
    | some p => ⟨true, p.Unit_Price_INR_per_meter, p.Min_Order_Qty_Meters, 0⟩

/-- `calculate_product_cost` (lines 101-119). -/
def calculate_product_cost (unit_price min_order_qty quantity_multiplier : ℚ) : ℚ :=
  unit_price * (min_order_qty * quantity_multiplier)

/-- The dict returned by `apply_pricing_margin`. -/
structure MarginInfo where
  base_cost : ℚ
  margin_percentage : ℚ
  quoted_price : ℚ
deriving DecidableEq, Repr

/-- The size-dependent base margin of `apply_pricing_margin`
(lines 147-153): 15% above 500k, 20% above 200k, else 25%. -/
def margin_tier (base_cost : ℚ) : ℚ :=
  if 500000 < base_cost then 15/100
  else if 200000 < base_cost then 20/100
  else 25/100

/-- `apply_pricing_margin` (lines 125-168); `draw` is the value sampled by
`random.uniform(-0.05, 0.05)`, passed explicitly. -/
def apply_pricing_margin (base_cost draw : ℚ) : MarginInfo :=
  if base_cost = 0 then ⟨0, 0, 0⟩
  else
    let final_margin := max (10/100) (min (margin_tier base_cost + draw) (35/100))
    ⟨round2 base_cost, round2 (final_margin * 100), round2 (base_cost * (1 + final_margin))⟩

/-- One input entry of `calculate_tender_pricing`: the three identifier
keys it probes plus the display name; a key mapped to `none` is absent. -/
structure PMatch where
  product_id : Option String
  sku : Option String
  Product_ID : Option String
  product_name : Option String
deriving DecidableEq, Repr

/-- Python truthiness of an optional string: absent and `""` are falsy. -/
def truthyStr : Option String → Option String
  | none => none
  | some s => if s = "" then none else some s

/-- `match.get("product_id") or match.get("sku") or match.get("Product_ID")`
(line 211): the first truthy identifier, if any. -/
def get_pid (m : PMatch) : Option String :=
  match truthyStr m.product_id with
  | some s => some s
  | none =>
    match truthyStr m.sku with
    | some s => some s
    | none => truthyStr m.Product_ID

/-- One line of the `product_costs` list (lines 225-231 and 249-257). -/
inductive CostLine where
  | not_found (product_id product_name : String) (cost : ℚ)
  | calculated (product_id product_name : String)
      (unit_price min_order_qty quantity_multiplier cost : ℚ)
deriving DecidableEq, Repr

/-- The dict returned by `calculate_tender_pricing`. -/
structure PricingResult where
  product_costs : List CostLine
  base_total : ℚ
  margin_percentage : ℚ
  final_price : ℚ
  error : Option String
  products_analyzed : Option ℕ
deriving DecidableEq, Repr

/-- The body of the per-match loop of `calculate_tender_pricing`
(lines 206-257), folded over the accumulated cost lines and running total:
falsy entries and entries without a truthy identifier are skipped. -/
def pricingStep (db : List Product) (acc : List CostLine × ℚ) (m? : Option PMatch) :
    List CostLine × ℚ :=
  match m? with
  | none => acc
  | some m =>
    match get_pid m with
    | none => acc
    | some pid =>
      let info := get_product_pricing db pid
      if info.found then
        let cost := calculate_product_cost info.unit_price info.min_order_qty 1
        (acc.1 ++ [CostLine.calculated pid (m.product_name.getD "Unknown")
            info.unit_price info.min_order_qty 1 (round2 cost)],
         acc.2 + cost)
      else
        (acc.1 ++ [CostLine.not_found pid (m.product_name.getD "Unknown") info.fallback_estimate],
         acc.2 + info.fallback_estimate)

/-- `calculate_tender_pricing` (lines 174-282); the `matches` argument is
called `ms` (`matches` is reserved in Lean) and `draw` is the margin
perturbation passed through to `apply_pricing_margin`. -/
def calculate_tender_pricing (db : List Product) (ms : List (Option PMatch))
    (draw : ℚ) : PricingResult :=
  if ms = [] then
    ⟨[], 0, 0, 0, some "No product recommendations provided", none⟩
  else
    let acc := ms.foldl (pricingStep db) ([], 0)
    if acc.2 = 0 then
      ⟨acc.1, 0, 0, 0, some "Could not calculate any product costs", none⟩
    else
      let mi := apply_pricing_margin acc.2 draw
      ⟨acc.1, mi.base_cost, mi.margin_percentage, mi.quoted_price, none, some acc.1.length⟩

/-- The dict returned by `calculate_test_costs` (lines 316-369); its
internals (substring scan of a fixed test vocabulary) are not needed by
the claims, so it is taken as an opaque record here. -/
structure TestCostsInfo where
  test_costs : List (String × ℚ)
  total_test_cost : ℚ
  tests_identified : ℕ
deriving DecidableEq, Repr

/-- The consolidated pricing table of `consolidate_final_pricing`
(lines 375-407), flattened to its numeric fields. -/
structure ConsolidatedPricing where
  base_total : ℚ
  margin_percentage : ℚ
  material_total : ℚ
  testing_total : ℚ
  material_cost : ℚ
  testing_cost : ℚ
  grand_total : ℚ
  products_count : ℕ
  tests_count : ℕ
deriving DecidableEq, Repr

/-- `consolidate_final_pricing` (lines 375-407):
`grand_total = final_price + total_test_cost`. -/
def consolidate_final_pricing (tp : PricingResult) (tc : TestCostsInfo) : ConsolidatedPricing :=
  ⟨tp.base_total, tp.margin_percentage, tp.final_price, tc.total_test_cost,
   tp.final_price, tc.total_test_cost, tp.final_price + tc.total_test_cost,
   tp.products_analyzed.getD 0, tc.tests_identified⟩

/-! ## Sales agent (`sales_agent/agent.py`) -/

/-- `SALES_KEYWORDS` (lines 199-203). -/
def SALES_KEYWORDS : List String :=
  ["power", "cable", "electrical", "supply", "infrastructure", "metro",
   "substation", "transformer", "hvac", "switchgear", "transmission", "distribution"]

/-- The high-priority category terms of line 243. -/
def CATEGORY_TERMS : List String := ["power", "electrical", "cable", "infrastructure"]

/-- The text fields of one RFP read by the scoring closure inside
`select_best_rfp` (lines 217-223). -/
structure SalesRfp where
  projectName : String
  project_name : String
  project_overview : String
  scope_of_supply : String
  category : String
deriving DecidableEq, Repr

/-- The lower-cased blob `" ".join([...]).lower()` of lines 217-223. -/
def rfp_text_blob (r : SalesRfp) : String :=
  strToLower (r.projectName ++ " " ++ r.project_name ++ " " ++ r.project_overview
    ++ " " ++ r.scope_of_supply ++ " " ++ r.category)

/-- The keyword-relevance step of the `score` closure (lines 225-227):
5 points per `SALES_KEYWORDS` member occurring in the blob, capped at 50. -/
def keyword_score_part (r : SalesRfp) : ℚ :=
  min (((SALES_KEYWORDS.filter (fun k => isSubstrS k (rfp_text_blob r))).length : ℚ) * 5) 50

/-- The deadline-urgency step of the `score` closure (lines 229-239):
`max(0, 30 - days_left * 0.33)` when the deadline parsed, else 0. -/
def urgency_score_part (days_left : Option Int) : ℚ :=
  match days_left with
  | none => 0
  | some d => max 0 (30 - (d : ℚ) * (33/100))

/-- The category-bonus step of the `score` closure (lines 241-244). -/
def category_bonus_part (r : SalesRfp) : ℚ :=
  if CATEGORY_TERMS.any (fun t => isSubstrS t (strToLower r.category)) then 20 else 0

/-- The `score` closure of `select_best_rfp` (lines 205-246): the sum of
its three accumulation steps, rounded to two decimals. `days_left` is
`(parse_date(deadline) - datetime.now()).days`, abstracted to a signed
integer; `none` models a missing or unparseable deadline. -/
def rfp_score (r : SalesRfp) (days_left : Option Int) : ℚ :=
  round2 (keyword_score_part r + urgency_score_part days_left + category_bonus_part r)

/-! ## Scoring agent (`scoring_agent/agent.py`) -/

/-- One entry of the `matches` list consumed by the scoring tools: the
keys the sub-scorers read, with the two identifier spellings probed by
`match.get('product_id') or match.get('Product_ID')`. -/
structure ScoreMatch where
  product_id : Option String
  Product_ID : Option String
  spec_match_percent : ℚ
  lead_time_days : ℚ
  category : String
deriving DecidableEq, Repr

/-- `match.get('product_id') or match.get('Product_ID')` (line 174 and
elsewhere): the first truthy identifier. -/
def score_get_pid (m : ScoreMatch) : Option String :=
  match truthyStr m.product_id with
  | some s => some s
  | none => truthyStr m.Product_ID

/-- `score_technical_match` (lines 94-151): exponentially decayed weighted
average of the top-5 positive match percentages times a diversity
multiplier, capped at 100. `expQ` abstracts `math.exp`. -/
def score_technical_match (expQ : ℚ → ℚ) (ms : List (Option ScoreMatch)) : ℚ :=
  if ms = [] then 0
  else
    let valid := (ms.filterMap id).filter (fun m => 0 < m.spec_match_percent)
    if valid = [] then 0
    else
      let top := valid.take 5
      let total_score := (top.enum.map (fun im =>
        im.2.spec_match_percent * expQ (-(3/10) * (im.1 : ℚ)))).sum
      let total_weight := (top.enum.map (fun im => expQ (-(3/10) * (im.1 : ℚ)))).sum
      let weighted_avg := if 0 < total_weight then total_score / total_weight else 0
      let good_matches := (valid.filter (fun m => 70 ≤ m.spec_match_percent)).length
      let diversity_multiplier := min (1 + ((good_matches : ℚ) - 1) * (5/100)) (115/100)
      round2 (min (weighted_avg * diversity_multiplier) 100)

/-- `calculate_actual_cost` (lines 157-189): sum of `unit_price × MOQ`
over the matches whose identifier is found in the catalog. -/
def calculate_actual_cost (ms : List (Option ScoreMatch)) (db : List Product) : ℚ :=
  (ms.filterMap (fun m? =>
    m?.bind (fun m =>
      (score_get_pid m).bind (fun pid =>
        (db.find? (fun p => p.Product_ID == pid)).map
          (fun p => p.Unit_Price_INR_per_meter * p.Min_Order_Qty_Meters))))).sum

/-- `score_price_competitiveness` (lines 195-257): sigmoid score around
the 25% ideal margin, with penalties for margins below 5% or above 50%,
clamped to [0, 100]. `expQ` abstracts `math.exp`. -/
def score_price_competitiveness (expQ : ℚ → ℚ) (db : List Product)
    (estimated_price : ℚ) (ms : List (Option ScoreMatch)) : ℚ :=
  if estimated_price ≤ 0 ∨ ms = [] then 0
  else
    let actual0 := calculate_actual_cost ms db
    let actual_cost := if actual0 ≤ 0 then estimated_price * (70/100) else actual0
    let margin := if 0 < estimated_price then (estimated_price - actual_cost) / estimated_price else 0
    let margin_deviation := |margin - 25/100|
    let score := 100 / (1 + expQ (10 * (margin_deviation - 10/100)))
    let score2 :=
      if margin < 5/100 then score * (1/2)
      else if 50/100 < margin then score * (6/10)
      else score
    round2 (max 0 (min score2 100))

/-- `score_delivery_capability` (lines 263-326): lead-time based score
with an urgency penalty when a deadline is supplied. `deadline` is the
signed number of days until the deadline (`none`: absent/unparseable). -/
def score_delivery_capability (ms : List (Option ScoreMatch)) (deadline : Option Int) : ℚ :=
  if ms = [] then 0
  else
    let lead_times := (ms.filterMap id).map (fun m => m.lead_time_days)
    let avg_lead_time := if lead_times = [] then 0 else lead_times.sum / (lead_times.length : ℚ)
    let base_score := max 0 (100 - avg_lead_time * (11/10))
    let urgency_penalty : ℚ :=
      match deadline with
      | none => 0
      | some d =>
        if 0 < d then
          let time_buffer := (d : ℚ) - avg_lead_time
          if time_buffer < 0 then 50
          else if time_buffer < 14 then 30
          else if time_buffer < 30 then 15
          else 0
        else 0
    round2 (max 0 (base_score - urgency_penalty))

/-- The message of the `AttributeError` raised at line 376 of
`scoring_agent/agent.py`: `str(...)` is applied before `.iloc[0]`, so the
attribute access is on a Python `str`. -/
def iloc_attribute_error : String :=
  "AttributeError: str object has no attribute iloc"

/-- The dict returned by `score_compliance` when it returns at all. -/
structure ComplianceResult where
  compliance_score : ℚ
  bis_certified_percent : ℚ
  standards_compliant_percent : ℚ
  avg_warranty_years : ℚ
deriving DecidableEq, Repr

/-- The per-match loop of `score_compliance` (lines 362-383): falsy
entries and entries without a truthy identifier are skipped; for the first
entry whose identifier is found in the catalog, line 376 evaluates
`str(product_row.get('Standards_Compliance', [''])).iloc[0]` and raises
`AttributeError`, because `str` has no attribute `iloc`. -/
def complianceLoop (db : List Product) : List (Option ScoreMatch) → Except String Unit
  | [] => Except.ok ()
  | m? :: rest =>
    match m? with
    | none => complianceLoop db rest
    | some m =>
      match score_get_pid m with
      | none => complianceLoop db rest
      | some pid =>
        match db.find? (fun p => p.Product_ID == pid) with
        | none => complianceLoop db rest
        | some _ => Except.error iloc_attribute_error

/-- `score_compliance` (lines 332-409). Both return paths that are
actually reachable (empty matches, or no match found in the catalog) carry
`valid_count = 0` and hence all-zero scores; any found match raises. -/
def score_compliance (db : List Product) (ms : List (Option ScoreMatch)) :
    Except String ComplianceResult :=
  if ms = [] then Except.ok ⟨0, 0, 0, 0⟩
  else (complianceLoop db ms).map (fun _ => (⟨0, 0, 0, 0⟩ : ComplianceResult))

/-- `score_risk_assessment` (lines 415-478): availability (10 points per
match, max 50), category diversity (10 per distinct category, max 30) and
MOQ-consistency (20 minus 40 × coefficient of variation, floored at 0;
20 outright when fewer than two MOQs are available). `sqrtQ` abstracts
`math.sqrt`. -/
def score_risk_assessment (sqrtQ : ℚ → ℚ) (db : List Product)
    (ms : List (Option ScoreMatch)) : ℚ :=
  if ms = [] then 0
  else
    let availability_score : ℚ := min ((ms.length : ℚ) * 10) 50
    let categories := ((ms.filterMap id).map (fun m => m.category)).dedup
    let diversity_score : ℚ := min ((categories.length : ℚ) * 10) 30
    let moqs := ms.filterMap (fun m? =>
      m?.bind (fun m =>
        (score_get_pid m).bind (fun pid =>
          (db.find? (fun p => p.Product_ID == pid)).map (fun p => p.Min_Order_Qty_Meters))))
    let consistency_score : ℚ :=
      if 1 < moqs.length then
        let mean_moq := moqs.sum / (moqs.length : ℚ)
        let variance := (moqs.map (fun x => (x - mean_moq) ^ 2)).sum / (moqs.length : ℚ)
        let std_dev := sqrtQ variance
        let cv := if 0 < mean_moq then std_dev / mean_moq else 0
        max 0 (20 - cv * 40)
      else 20
    round2 (availability_score + diversity_score + consistency_score)

/-- The grade thresholds of `calculate_final_score` (lines 550-561),
inclusive lower bounds on the unrounded weighted sum. -/
def gradeOf (final_score : ℚ) : String :=
  if 85 ≤ final_score then "A+"
  else if 75 ≤ final_score then "A"
  else if 65 ≤ final_score then "B+"
  else if 55 ≤ final_score then "B"
  else if 45 ≤ final_score then "C"
  else "D"

/-- `generate_recommendation` (lines 484-504): the fixed grade-keyed
template (the interpolation of the numeric score into the text is elided
from this string model). -/
def generate_recommendation (grade : String) : String :=
  if grade = "A+" then "STRONGLY RECOMMEND pursuing this RFP."
  else if grade = "A" then "RECOMMEND pursuing this RFP."
  else if grade = "B+" then "CONDITIONAL RECOMMENDATION."
  else if grade = "B" then "PROCEED WITH CAUTION."
  else if grade = "C" then "MARGINAL OPPORTUNITY."
  else if grade = "D" then "DO NOT PURSUE."
  else "Evaluate based on strategic priorities."

/-- The five raw component scores of one scoring run. -/
structure ComponentFive where
  technical_match : ℚ
  price_competitiveness : ℚ
  delivery_capability : ℚ
  compliance : ℚ
  risk_score : ℚ
deriving DecidableEq, Repr

/-- The weighted sum of lines 541-547 with the `SCORING_WEIGHTS` table
(.35, .25, .15, .15, .10). -/
def weighted_final (c : ComponentFive) : ℚ :=
  c.technical_match * (35/100) + c.price_competitiveness * (25/100)
    + c.delivery_capability * (15/100) + c.compliance * (15/100)
    + c.risk_score * (10/100)

/-- The dict returned by `calculate_final_score`. -/
structure ScoreResult where
  final_score : ℚ
  grade : String
  normalized_score : ℚ
  component_scores : ComponentFive
  weighted_contributions : ComponentFive
  recommendation : String
deriving DecidableEq, Repr

/-- `calculate_final_score` (lines 510-591): run the five sub-scorers,
combine them with `SCORING_WEIGHTS`, grade the unrounded sum and round the
reported score to two decimals. The `Except` propagates the
`AttributeError` of `score_compliance`. -/
def calculate_final_score (expQ sqrtQ : ℚ → ℚ) (db : List Product)
    (ms : List (Option ScoreMatch)) (estimated_price : ℚ) (rfp_deadline : Option Int) :
    Except String ScoreResult :=
  let t := score_technical_match expQ ms
  let p := score_price_competitiveness expQ db estimated_price ms
  let d := score_delivery_capability ms rfp_deadline
  (score_compliance db ms).map (fun comp =>
    let c := comp.compliance_score
    let r := score_risk_assessment sqrtQ db ms
    let five : ComponentFive := ⟨t, p, d, c, r⟩
    let final_score := weighted_final five
    let grade := gradeOf final_score
    ⟨round2 final_score, grade, (Int.floor (final_score / 100 * 1000 + 1/2) : ℚ) / 1000, five,
     ⟨round2 (t * (35/100)), round2 (p * (25/100)), round2 (d * (15/100)),
      round2 (c * (15/100)), round2 (r * (10/100))⟩,
     generate_recommendation grade⟩)

/-! ## Definitions taken from the claims (for comparison with the source) -/

/-- The margin tier as worded in claim C5: 15% when base > 500,000; 20%
when base lies in 200,000 - 500,000; 25% when base < 200,000. -/
def margin_tier_claimed (base_cost : ℚ) : ℚ :=
  if 500000 < base_cost then 15/100
  else if 200000 ≤ base_cost ∧ base_cost ≤ 500000 then 20/100
  else 25/100

/-- `fuzzy_contains` as worded in claim C9: normalized-value substring of
normalized haystack, or the value IS one of a group's variants and some
variant of that group occurs in the normalized haystack. -/
def fuzzy_contains_claimed (value haystack : String)
    (synonym_table : List (String × List String)) : Bool :=
  isSubstrS (normalize_text value) (normalize_text haystack) ||
    synonym_table.any (fun g =>
      g.2.contains (normalize_text value) &&
      g.2.any (fun v => isSubstrS v (normalize_text haystack)))

/-- `fuzzy_contains` as worded in the amended claim C9: as claimed, except
that a value also belongs to a group when it merely CONTAINS one of the
group's variants as a substring (the lookup is substring-based). -/
def fuzzy_contains_amended (value haystack : String)
    (synonym_table : List (String × List String)) : Bool :=
  isSubstrS (normalize_text value) (normalize_text haystack) ||
    synonym_table.any (fun g =>
      (g.2.contains (normalize_text value) ||
        g.2.any (fun v => isSubstrS v (normalize_text value))) &&
      g.2.any (fun v => isSubstrS v (normalize_text haystack)))

/-! ## Concrete inputs used by counterexamples and witnesses -/

/-- The requirement text of the end-to-end scenario in claim C2. -/
def scenario_requirement : String :=
  "Voltage Rating: 11 kV, Conductor: Copper, Insulation: XLPE, Cores: 3"

/-- The normalized requirement text handed to the component scorer
(`flatten_rfp_specs` normalizes before matching). -/
def scenario_rfp_text : String := normalize_text scenario_requirement

/-- The catalog product of the scenario in claim C2: voltage "11kV",
conductor "Copper", insulation "XLPE", 3 cores, armoring "SWA"; the claim
gives no standards text, and a missing `Standards_Compliance` reads back
as `''` through `product_row.get(..., '')`. -/
def scenario_product : Product :=
  ⟨"P1", "11kV XLPE 3-Core Cu Cable", "Power Cables", "11kV", "",
   "Copper", "XLPE", 3, "SWA", 1200, 30, true, 1000, 2⟩

/-- An RFP whose every text field is empty (so keyword and category terms
contribute 0 to the sales score). -/
def empty_rfp : SalesRfp := ⟨"", "", "", "", ""⟩

/-- A scoring-agent match naming a product that IS in the mock catalog
(the input class singled out by claim C1). -/
def crash_matches : List (Option ScoreMatch) :=
  [some ⟨some "PROD_001", none, 95, 30, "Power Cables"⟩]

/-- A stand-in for `math.exp` used to instantiate witnesses (any positive
function is admissible for the proved theorems). -/
def expOne : ℚ → ℚ := fun _ => 1

/-- A stand-in for `math.sqrt` used to instantiate witnesses (any
nonnegative function is admissible for the proved theorems). -/
def sqrtZero : ℚ → ℚ := fun _ => 0

/-- A scoring-agent match whose product is NOT in the mock catalog, so
`score_compliance` returns instead of raising. -/
def c7ex_matches : List (Option ScoreMatch) :=
  [some ⟨some "PX", none, 50, 10, "c"⟩]

/-- The witness run of the composite scorer on `c7ex_matches`. -/
def c7ex_call : Except String ScoreResult :=
  calculate_final_score expOne sqrtZero mock_database c7ex_matches 100 none

/-- The result record of the witness run (the `error` branch is
unreachable there). -/
def c7ex_result : ScoreResult :=
  match c7ex_call with
  | Except.ok r => r
  | Except.error _ => ⟨0, "D", 0, ⟨0, 0, 0, 0, 0⟩, ⟨0, 0, 0, 0, 0⟩, ""⟩

/-- A technical brief used to exercise the matcher end to end. -/
def c8ex_brief : TechnicalBrief :=
  ⟨"Supply of 11kV XLPE insulated power cables, 3 core copper conductor",
   "Voltage Rating: 11kV, Conductor: Copper, Insulation: XLPE, Cores: 3, Standards: IS 7098, IEC 60502, Armoring: SWA"⟩

/-- Python truthiness of one pricing input entry: `None` entries and
entries without a truthy identifier are the ones the loop skips. -/
def valid_pmatch : Option PMatch → Bool
  | none => false
  | some m => (get_pid m).isSome

/-! ## Shared facts about `round2` -/

theorem round2_mono {x y : ℚ} (h : x ≤ y) : round2 x ≤ round2 y := by
  unfold round2
  have hf : (Int.floor (x * 100 + 1/2) : ℤ) ≤ Int.floor (y * 100 + 1/2) :=
    Int.floor_le_floor (by linarith)
  exact (div_le_div_iff_of_pos_right (by norm_num)).mpr (by exact_mod_cast hf)

theorem round2_le_add (x : ℚ) : round2 x ≤ x + 1/200 := by
  unfold round2
  have := Int.floor_le (x * 100 + 1/2)
  rw [div_le_iff₀ (by norm_num : (0:ℚ) < 100)]
  linarith

theorem lt_round2_add (x : ℚ) : x - 1/200 < round2 x := by
  unfold round2
  have := Int.lt_floor_add_one (x * 100 + 1/2)
  rw [lt_div_iff₀ (by norm_num : (0:ℚ) < 100)]
  linarith

theorem round2_lt_of_gap {x y : ℚ} (h : x + 1/50 ≤ y) : round2 x < round2 y := by
  have h1 := round2_le_add x
  have h2 := lt_round2_add y
  linarith

theorem round2_zero : round2 0 = 0 := by norm_num [round2]

theorem round2_hundred : round2 100 = 100 := by norm_num [round2]

theorem round2_mem_Icc {x lo hi : ℚ} (hlo : lo ≤ x) (hhi : x ≤ hi)
    (hl : round2 lo = lo) (hh : round2 hi = hi) : lo ≤ round2 x ∧ round2 x ≤ hi :=
  ⟨hl ▸ round2_mono hlo, hh ▸ round2_mono hhi⟩

/-! ## Claim C1 — the composite scorer crashes on catalog-found products -/

/-- C1. The claim says `calculate_final_score` always returns a complete
`OpportunityScore` and never raises, for any matches list — including
non-empty lists of products present in the catalog. The code violates
this: for a match whose identifier is found in the catalog,
`score_compliance` evaluates `str(...).iloc[0]` (line 376) and raises
`AttributeError`, which propagates out of `calculate_final_score`. This
theorem exhibits the crash for every price, deadline, and every
interpretation of `math.exp` / `math.sqrt`. -/
theorem C1_compliance_crash (expQ sqrtQ : ℚ → ℚ) (price : ℚ) (deadline : Option Int) :
    calculate_final_score expQ sqrtQ mock_database crash_matches price deadline
      = Except.error iloc_attribute_error := rfl

/-! ## Claim C2 — the end-to-end matching scenario -/

/-- C2 counterexample. On the scenario input the voltage component scores
0 (the normalized catalog rating "11kv" is not a substring of the
requirement, whose normalization keeps the space in "11 kv"), and the
weighted total is not the claimed 70.00. -/
theorem C2_counterexample :
    (calculate_component_scores scenario_product scenario_rfp_text).voltage ≠ 100 ∧
    calculate_weighted_score (calculate_component_scores scenario_product scenario_rfp_text) ≠ 70 := by
  have hcs : calculate_component_scores scenario_product scenario_rfp_text
      = ⟨0, 100, 100, 100, 100, 0⟩ := by decide
  rw [hcs]
  norm_num [calculate_weighted_score, round2]

/-- C2 amended. The scenario yields component scores voltage 0 (the
normalized requirement reads "11 kv" with a space, so "11kv" does not
occur), standards 100 (the scenario product carries no standards text and
the empty string is a substring of every text), conductor 100,
insulation 100, cores 100, armoring 0, and the weighted total is
0.20·100 + 0.18·100 + 0.15·100 + 0.12·100 = 65.00. -/
theorem C2_scenario_amended :
    calculate_component_scores scenario_product scenario_rfp_text
      = ⟨0, 100, 100, 100, 100, 0⟩ ∧
    calculate_weighted_score (calculate_component_scores scenario_product scenario_rfp_text)
      = 65 := by
  have hcs : calculate_component_scores scenario_product scenario_rfp_text
      = ⟨0, 100, 100, 100, 100, 0⟩ := by decide
  refine ⟨hcs, ?_⟩
  rw [hcs]
  norm_num [calculate_weighted_score, round2]

/-! ## Claim C3 — idempotence of the text normalizer -/

/-- C3 counterexample. `normalize_text` is not idempotent: punctuation at
the end of the input is replaced by a space after the strip has already
happened, so `normalize_text "abc!" = "abc "` while a second application
yields `"abc"`. The spec's own sample equality fails the same way:
`normalize_text "XLPE  Cable!"` ends in a space, `normalize_text
"xlpe cable"` does not. -/
theorem C3_counterexample :
    normalize_text (normalize_text "abc!") ≠ normalize_text "abc!" ∧
    normalize_text "XLPE  Cable!" ≠ normalize_text "xlpe cable" := by
  decide

/-! ## Claim C4 — deadline urgency in tender selection -/

/-- C4 counterexample. A tender whose parsed deadline lies 10 days in the
past does not receive urgency 0: the urgency formula is applied to the
negative day count, yielding 30 + 10·0.33 = 33.3 — a bonus above the
nominal 30-point cap — so an otherwise zero-scoring tender scores 33.3,
not 0. -/
theorem C4_counterexample :
    rfp_score empty_rfp (some (-10)) = 333/10 ∧ (333/10 : ℚ) ≠ 0 := by
  have hflt : SALES_KEYWORDS.filter (fun k => isSubstrS k (rfp_text_blob empty_rfp)) = [] := by
    decide
  have hany : CATEGORY_TERMS.any (fun t => isSubstrS t (strToLower empty_rfp.category)) = false := by
    decide
  constructor
  · simp only [rfp_score, keyword_score_part, urgency_score_part, category_bonus_part,
      hflt, hany, List.length_nil]
    norm_num [round2]
  · norm_num

/-- C4 amended. The urgency term `max(0, 30 − days_left × 0.33)` is
applied uniformly to the signed day count — a past deadline (negative
days) yields a bonus above 30, not 0 — and consequently, for two tenders
with identical text and category and parsed deadlines `d1 < d2` days away
(with `d1 ≤ 90`, where the urgency term is still positive), the tender
with the nearer deadline scores strictly higher; in particular 5 days out
beats 60 days out. -/
theorem C4_urgency_amended (r : SalesRfp) (d1 d2 : Int) (h12 : d1 < d2) (h90 : d1 ≤ 90) :
    rfp_score r (some d2) < rfp_score r (some d1) := by
  unfold rfp_score
  apply round2_lt_of_gap
  have hA : (d1 : ℚ) ≤ 90 := by exact_mod_cast h90
  have hd : (d1 : ℚ) + 1 ≤ (d2 : ℚ) := by exact_mod_cast h12
  have hmul : (d1 : ℚ) * (33/100) ≤ 90 * (33/100) :=
    mul_le_mul_of_nonneg_right hA (by norm_num)
  have hge : (3:ℚ)/10 ≤ 30 - (d1 : ℚ) * (33/100) := by linarith
  have key : urgency_score_part (some d2) + 1/50 ≤ urgency_score_part (some d1) := by
    unfold urgency_score_part
    dsimp only
    rw [max_eq_right (by linarith : (0:ℚ) ≤ 30 - (d1 : ℚ) * (33/100))]
    rcases le_total (30 - (d2 : ℚ) * (33/100)) 0 with h | h
    · rw [max_eq_left h]; linarith
    · rw [max_eq_right h]
      have hgap : (33:ℚ)/100 * 1 ≤ (33/100) * ((d2 : ℚ) - d1) :=
        mul_le_mul_of_nonneg_left (by linarith) (by norm_num)
      nlinarith
  linarith [key]

/-- C4 witness: with all text fields empty, the 5-day tender outscores
the 60-day tender. -/
theorem C4_witness : rfp_score empty_rfp (some 60) < rfp_score empty_rfp (some 5) :=
  C4_urgency_amended empty_rfp 5 60 (by norm_num) (by norm_num)

/-! ## Claim C5 — the pricing margin policy -/

/-- C5 counterexample. At base cost exactly 200,000 the code applies the
25% tier (`elif base_cost > 200000` is false), while the claim's tier
table (20% for base in 200,000-500,000, 25% only below 200,000) demands
20%: the code answers margin 25.0, the claimed policy 20.0. -/
theorem C5_counterexample :
    (apply_pricing_margin 200000 0).margin_percentage = 25 ∧
    round2 ((max (10/100) (min (margin_tier_claimed 200000 + 0) (35/100))) * 100) = 20 ∧
    (25 : ℚ) ≠ 20 := by
  refine ⟨?_, ?_, by norm_num⟩
  · norm_num [apply_pricing_margin, margin_tier, round2]
  · norm_num [margin_tier_claimed, round2]

/-- C5 amended. For every base cost > 0 and every draw in [−0.05, 0.05]
the applied margin is the code's tier (15% strictly above 500,000; 20%
strictly above 200,000 and up to 500,000; 25% at or below 200,000 — the
boundary 200,000 falls in the 25% tier) plus the draw, clamped to
[10%, 35%]; the quoted total is base × (1 + margin) rounded to 2
decimals; the reported margin percentage always lies in [10, 35] and,
for base above 500,000, in [10, 20]. -/
theorem C5_margin_amended (base_cost draw : ℚ) (hb : 0 < base_cost)
    (_hd1 : -(5/100) ≤ draw) (hd2 : draw ≤ 5/100) :
    (apply_pricing_margin base_cost draw).margin_percentage
        = round2 ((max (10/100) (min (margin_tier base_cost + draw) (35/100))) * 100) ∧
    (apply_pricing_margin base_cost draw).quoted_price
        = round2 (base_cost * (1 + max (10/100) (min (margin_tier base_cost + draw) (35/100)))) ∧
    10 ≤ (apply_pricing_margin base_cost draw).margin_percentage ∧
    (apply_pricing_margin base_cost draw).margin_percentage ≤ 35 ∧
    (500000 < base_cost → (apply_pricing_margin base_cost draw).margin_percentage ≤ 20) := by
  have hne : ¬ base_cost = 0 := by exact ne_of_gt hb
  have happ : apply_pricing_margin base_cost draw
      = ⟨round2 base_cost,
         round2 ((max (10/100) (min (margin_tier base_cost + draw) (35/100))) * 100),
         round2 (base_cost * (1 + max (10/100) (min (margin_tier base_cost + draw) (35/100))))⟩ := by
    unfold apply_pricing_margin
    rw [if_neg hne]
  rw [happ]
  have h10 : round2 (10 : ℚ) = 10 := by norm_num [round2]
  have h35 : round2 (35 : ℚ) = 35 := by norm_num [round2]
  have h20 : round2 (20 : ℚ) = 20 := by norm_num [round2]
  have hlo : (10:ℚ)/100 ≤ max (10/100) (min (margin_tier base_cost + draw) (35/100)) :=
    le_max_left _ _
  have hhi : max (10/100) (min (margin_tier base_cost + draw) (35/100)) ≤ 35/100 :=
    max_le (by norm_num) (min_le_right _ _)
  refine ⟨rfl, rfl, ?_, ?_, ?_⟩
  · have := round2_mono (show (10:ℚ) ≤ (max (10/100) (min (margin_tier base_cost + draw) (35/100))) * 100 by linarith)
    rw [h10] at this
    exact this
  · have := round2_mono (show (max (10/100) (min (margin_tier base_cost + draw) (35/100))) * 100 ≤ 35 by linarith)
    rw [h35] at this
    exact this
  · intro hbig
    have htier : margin_tier base_cost = 15/100 := by
      unfold margin_tier
      rw [if_pos hbig]
    have hle : max (10/100) (min (margin_tier base_cost + draw) (35/100)) ≤ 20/100 := by
      apply max_le (by norm_num)
      calc min (margin_tier base_cost + draw) (35/100) ≤ margin_tier base_cost + draw :=
            min_le_left _ _
        _ ≤ 20/100 := by rw [htier]; linarith
    have := round2_mono (show (max (10/100) (min (margin_tier base_cost + draw) (35/100))) * 100 ≤ 20 by linarith)
    rw [h20] at this
    exact this

/-- C5 witness: base 600,000 with draw +0.01 — the theorem's hypotheses
hold and the reported margin stays in [10, 20]. -/
theorem C5_witness :
    10 ≤ (apply_pricing_margin 600000 (1/100)).margin_percentage ∧
    (apply_pricing_margin 600000 (1/100)).margin_percentage ≤ 20 := by
  have h := C5_margin_amended 600000 (1/100) (by norm_num) (by norm_num) (by norm_num)
  exact ⟨h.2.2.1, h.2.2.2.2 (by norm_num)⟩

/-! ## Claim C6 — the pricing engine on an empty matches list -/

/-- C6. With an empty matches list `calculate_tender_pricing` returns
base 0, margin 0 and material total 0 without ever invoking the margin
policy, carries the explicit "No product recommendations provided" error
marker (distinct from a numeric zero bid), and the consolidated grand
total is exactly the test subtotal. -/
theorem C6_empty_matches (db : List Product) (draw : ℚ) (tc : TestCostsInfo) :
    (calculate_tender_pricing db [] draw).product_costs = [] ∧
    (calculate_tender_pricing db [] draw).base_total = 0 ∧
    (calculate_tender_pricing db [] draw).margin_percentage = 0 ∧
    (calculate_tender_pricing db [] draw).final_price = 0 ∧
    (calculate_tender_pricing db [] draw).error = some "No product recommendations provided" ∧
    (consolidate_final_pricing (calculate_tender_pricing db [] draw) tc).grand_total
      = tc.total_test_cost := by
  simp [calculate_tender_pricing, consolidate_final_pricing]

/-! ## Claim C9 — fuzzy containment -/

/-- C9 counterexample. `fuzzy_match "copper wire" "cu"` returns true —
the value is not one of the copper group's variants, but it CONTAINS the
variant "copper", and "cu" occurs in the haystack — while the claimed
membership-based reading returns false: the claimed iff fails. -/
theorem C9_counterexample :
    fuzzy_match "copper wire" "cu" MATERIAL_SYNONYMS = true ∧
    fuzzy_contains_claimed "copper wire" "cu" MATERIAL_SYNONYMS = false := by
  decide

/-- C9 amended. `fuzzy_match value haystack table` is true exactly when
the normalized value occurs in the normalized haystack, or some synonym
group has a variant occurring in the normalized haystack and the
normalized value either equals or CONTAINS one of that group's variants
(the synonym lookup is substring-based, not set membership); in
particular a direct normalized-substring hit returns true for every
synonym table. -/
theorem C9_fuzzy_amended :
    (∀ value haystack table,
      fuzzy_match value haystack table = fuzzy_contains_amended value haystack table) ∧
    (∀ value haystack table,
      isSubstrS (normalize_text value) (normalize_text haystack) = true →
      fuzzy_match value haystack table = true) := by
  constructor
  · intro v h t
    unfold fuzzy_match fuzzy_contains_amended
    by_cases hd : isSubstrS (normalize_text v) (normalize_text h) = true
    · simp [hd]
    · simp only [Bool.not_eq_true] at hd
      simp [hd]
  · intro v h t hsub
    unfold fuzzy_match
    simp [hsub]

/-- C9 witness: the direct-substring conjunct applied at a concrete
input with the empty synonym table. -/
theorem C9_witness : fuzzy_match "XLPE" "xlpe cable" [] = true :=
  C9_fuzzy_amended.2 "XLPE" "xlpe cable" [] (by decide)

/-! ## Claim C3 — what idempotence the normalizer does satisfy -/

theorem toNat_ofNat_valid (n : ℕ) (h : n.isValidChar) : (Char.ofNat n).toNat = n := by
  simp only [Char.ofNat, dif_pos h, Char.ofNatAux, Char.toNat]
  rfl

theorem toLower_not_upper (c : Char) :
    ¬((Char.toLower c).toNat ≥ 65 ∧ (Char.toLower c).toNat ≤ 90) := by
  unfold Char.toLower
  by_cases h : c.toNat ≥ 65 ∧ c.toNat ≤ 90
  · rw [if_pos h]
    have hv : (c.toNat + 32).isValidChar := Or.inl (by omega)
    rw [toNat_ofNat_valid _ hv]
    omega
  · rw [if_neg h]
    exact h

theorem toLower_toLower (c : Char) :
    Char.toLower (Char.toLower c) = Char.toLower c := by
  conv_lhs => rw [show Char.toLower (Char.toLower c)
    = if (Char.toLower c).toNat ≥ 65 ∧ (Char.toLower c).toNat ≤ 90
      then Char.ofNat ((Char.toLower c).toNat + 32) else Char.toLower c from rfl]
  rw [if_neg (toLower_not_upper c)]

theorem lowerL_fix {l : List Char} (h : ∀ c ∈ l, Char.toLower c = c) : lowerL l = l := by
  unfold lowerL
  rw [show List.map Char.toLower l = List.map id l from List.map_congr_left h, List.map_id]

theorem subPunct_fix {l : List Char} (h : ∀ c ∈ l, (isWordChar c || isSpc c) = true) :
    subPunct l = l := by
  unfold subPunct
  rw [show List.map (fun c => if isWordChar c || isSpc c then c else ' ') l = List.map id l
    from List.map_congr_left (fun c hc => by simp [h c hc]), List.map_id]

theorem subPunct_chars {z : List Char} {c : Char} (hc : c ∈ subPunct z) :
    (isWordChar c || isSpc c) = true := by
  rcases List.mem_map.mp hc with ⟨a, _, hfa⟩
  by_cases hcond : (isWordChar a || isSpc a) = true
  · rw [if_pos hcond] at hfa
    rw [← hfa]
    exact hcond
  · rw [if_neg hcond] at hfa
    rw [← hfa]
    decide

theorem mem_of_mem_subPunct {z : List Char} {c : Char} (hc : c ∈ subPunct z) :
    c = ' ' ∨ c ∈ z := by
  rcases List.mem_map.mp hc with ⟨a, ha, hfa⟩
  by_cases hcond : (isWordChar a || isSpc a) = true
  · rw [if_pos hcond] at hfa
    exact Or.inr (hfa ▸ ha)
  · rw [if_neg hcond] at hfa
    exact Or.inl hfa.symm

theorem mem_stripL {l : List Char} {c : Char} (h : c ∈ stripL l) : c ∈ l := by
  unfold stripL at h
  rw [List.mem_reverse] at h
  have h1 := (List.dropWhile_suffix isSpc).sublist.subset h
  rw [List.mem_reverse] at h1
  exact (List.dropWhile_suffix isSpc).sublist.subset h1

theorem mem_collapseGo (b : Bool) (z : List Char) (c : Char) (hc : c ∈ collapseGo b z) :
    c = ' ' ∨ (c ∈ z ∧ isSpc c = false) := by
  induction z generalizing b with
  | nil => simp [collapseGo] at hc
  | cons a r ih =>
    by_cases ha : isSpc a = true
    · cases b with
      | true =>
        rw [show collapseGo true (a :: r) = collapseGo true r from by simp [collapseGo, ha]] at hc
        rcases ih true hc with h | ⟨h1, h2⟩
        · exact Or.inl h
        · exact Or.inr ⟨List.mem_cons_of_mem _ h1, h2⟩
      | false =>
        rw [show collapseGo false (a :: r) = ' ' :: collapseGo true r
          from by simp [collapseGo, ha]] at hc
        rcases List.mem_cons.mp hc with h | h
        · exact Or.inl h
        · rcases ih true h with h | ⟨h1, h2⟩
          · exact Or.inl h
          · exact Or.inr ⟨List.mem_cons_of_mem _ h1, h2⟩
    · rw [show collapseGo b (a :: r) = a :: collapseGo false r from by simp [collapseGo, ha]] at hc
      rcases List.mem_cons.mp hc with h | h
      · subst h
        exact Or.inr ⟨List.mem_cons_self _ _, by simpa using ha⟩
      · rcases ih false h with h | ⟨h1, h2⟩
        · exact Or.inl h
        · exact Or.inr ⟨List.mem_cons_of_mem _ h1, h2⟩

theorem collapseGo_true_head (z : List Char) :
    ∀ c, (collapseGo true z).head? = some c → isSpc c = false := by
  induction z with
  | nil => intro c h; simp [collapseGo] at h
  | cons a r ih =>
    intro c h
    by_cases ha : isSpc a = true
    · rw [show collapseGo true (a :: r) = collapseGo true r from by simp [collapseGo, ha]] at h
      exact ih c h
    · rw [show collapseGo true (a :: r) = a :: collapseGo false r
        from by simp [collapseGo, ha]] at h
      simp only [List.head?_cons, Option.some.injEq] at h
      subst h
      simpa using ha

theorem chain_collapseGo (z : List Char) (b : Bool) :
    List.Chain' (fun x y => isSpc x = false ∨ isSpc y = false) (collapseGo b z) := by
  induction z generalizing b with
  | nil => simp [collapseGo]
  | cons a r ih =>
    by_cases ha : isSpc a = true
    · cases b with
      | true =>
        rw [show collapseGo true (a :: r) = collapseGo true r from by simp [collapseGo, ha]]
        exact ih true
      | false =>
        rw [show collapseGo false (a :: r) = ' ' :: collapseGo true r
          from by simp [collapseGo, ha]]
        rw [List.chain'_cons']
        refine ⟨?_, ih true⟩
        intro y hy
        exact Or.inr (collapseGo_true_head r y (Option.mem_def.mp hy))
    · rw [show collapseGo b (a :: r) = a :: collapseGo false r from by simp [collapseGo, ha]]
      rw [List.chain'_cons']
      exact ⟨fun y _ => Or.inl (by simpa using ha), ih false⟩

theorem chain_stripL {l : List Char}
    (h : List.Chain' (fun x y => isSpc x = false ∨ isSpc y = false) l) :
    List.Chain' (fun x y => isSpc x = false ∨ isSpc y = false) (stripL l) := by
  unfold stripL
  have h1 := h.suffix (List.dropWhile_suffix isSpc)
  have h2 : List.Chain' (fun x y => isSpc x = false ∨ isSpc y = false)
      (l.dropWhile isSpc).reverse := by
    rw [List.chain'_reverse]
    exact List.Chain'.imp (fun a b hab => hab.symm) h1
  have h3 := h2.suffix (List.dropWhile_suffix isSpc)
  rw [List.chain'_reverse]
  exact List.Chain'.imp (fun a b hab => hab.symm) h3

theorem collapseGo_fix (l : List Char)
    (hsp : ∀ c ∈ l, isSpc c = true → c = ' ')
    (hch : List.Chain' (fun x y => isSpc x = false ∨ isSpc y = false) l) :
    collapseGo false l = l ∧
      ((∀ c, l.head? = some c → isSpc c = false) → collapseGo true l = l) := by
  induction l with
  | nil => exact ⟨rfl, fun _ => rfl⟩
  | cons a r ih =>
    have hch' := (List.chain'_cons'.mp hch).2
    have hrel := (List.chain'_cons'.mp hch).1
    have hsp' : ∀ c ∈ r, isSpc c = true → c = ' ' :=
      fun c hc => hsp c (List.mem_cons_of_mem _ hc)
    by_cases ha : isSpc a = true
    · have ha' : a = ' ' := hsp a (List.mem_cons_self _ _) ha
      have hhead : ∀ c, r.head? = some c → isSpc c = false := by
        intro c hc
        rcases hrel c (Option.mem_def.mpr hc) with h | h
        · rw [ha] at h
          exact absurd h (by simp)
        · exact h
      have hr := (ih hsp' hch').2 hhead
      constructor
      · rw [show collapseGo false (a :: r) = ' ' :: collapseGo true r
          from by simp [collapseGo, ha], hr, ha']
      · intro hhd
        exact absurd (hhd a rfl) (by simp [ha])
    · have h1 := (ih hsp' hch').1
      constructor
      · rw [show collapseGo false (a :: r) = a :: collapseGo false r
          from by simp [collapseGo, ha], h1]
      · intro _
        rw [show collapseGo true (a :: r) = a :: collapseGo false r
          from by simp [collapseGo, ha], h1]

/-- C3 counterexample helper: what a second normalization pass does in
general — it exactly strips the leading/trailing space that a first pass
can leave behind. Stated as the amended claim below. -/
theorem normalize_chars_lower {s : String} {c : Char}
    (hc : c ∈ collapseWs (subPunct (stripL (lowerL s.data)))) :
    Char.toLower c = c := by
  rcases mem_collapseGo false _ c hc with h | ⟨h1, _⟩
  · subst h; decide
  · rcases mem_of_mem_subPunct h1 with h | h
    · subst h; decide
    · rcases List.mem_map.mp (mem_stripL h) with ⟨c1, _, hfa⟩
      rw [← hfa]
      exact toLower_toLower c1

/-- C3 amended. `normalize_text` is idempotent only up to a final strip:
for every string `x`, `normalize(normalize(x)) = strip(normalize(x))`.
(The source strips before replacing punctuation by spaces, so punctuation
at either end of the input survives as a leading/trailing space in the
output; a second pass removes exactly that, as does `str.strip()`. On
inputs whose normalization has no edge space the two sides coincide and
normalization is idempotent.) -/
theorem C3_normalize_idempotent_up_to_strip (s : String) :
    normalize_text (normalize_text s) = pyStrip (normalize_text s) := by
  by_cases hs : s = ""
  · subst hs; rfl
  · have hnorm : normalize_text s = ⟨collapseWs (subPunct (stripL (lowerL s.data)))⟩ := by
      simp only [normalize_text]
      rw [if_neg hs]
    rw [hnorm]
    set y := collapseWs (subPunct (stripL (lowerL s.data))) with hy
    have hlower : ∀ c ∈ y, Char.toLower c = c := fun c hc => normalize_chars_lower (hy ▸ hc)
    have hword : ∀ c ∈ y, (isWordChar c || isSpc c) = true := by
      intro c hc
      rcases mem_collapseGo false _ c hc with h | ⟨h1, _⟩
      · subst h; decide
      · exact subPunct_chars h1
    have hspace : ∀ c ∈ y, isSpc c = true → c = ' ' := by
      intro c hc hspc
      rcases mem_collapseGo false _ c hc with h | ⟨_, h2⟩
      · exact h
      · rw [hspc] at h2; cases h2
    have hchain : List.Chain' (fun x y => isSpc x = false ∨ isSpc y = false) y :=
      chain_collapseGo _ false
    by_cases hy0 : y = []
    · rw [hy0]; rfl
    · have hne : (⟨y⟩ : String) ≠ "" := by
        intro h
        exact hy0 (congrArg String.data h)
      have hstep : normalize_text ⟨y⟩ = ⟨collapseWs (subPunct (stripL (lowerL y)))⟩ := by
        simp only [normalize_text]
        rw [if_neg hne]
      rw [hstep]
      have hps : pyStrip ⟨y⟩ = ⟨stripL y⟩ := rfl
      rw [hps, lowerL_fix hlower]
      have hword' : ∀ c ∈ stripL y, (isWordChar c || isSpc c) = true :=
        fun c hc => hword c (mem_stripL hc)
      rw [subPunct_fix hword']
      have hspace' : ∀ c ∈ stripL y, isSpc c = true → c = ' ' :=
        fun c hc => hspace c (mem_stripL hc)
      rw [show collapseWs (stripL y) = stripL y
        from (collapseGo_fix _ hspace' (chain_stripL hchain)).1]

/-! ## Claim C10 — invalid pricing entries are silently skipped -/

theorem pricingStep_skip (db : List Product) (acc : List CostLine × ℚ)
    (m? : Option PMatch) (h : valid_pmatch m? = false) : pricingStep db acc m? = acc := by
  cases m? with
  | none => rfl
  | some m =>
    have h' : (get_pid m).isSome = false := h
    unfold pricingStep
    dsimp only
    cases hpid : get_pid m with
    | none => rfl
    | some pid =>
      rw [hpid] at h'
      simp at h'

theorem pricingFold_filter (db : List Product) :
    ∀ (l : List (Option PMatch)) (acc : List CostLine × ℚ),
      (l.filter valid_pmatch).foldl (pricingStep db) acc = l.foldl (pricingStep db) acc := by
  intro l
  induction l with
  | nil => intro acc; rfl
  | cons a r ih =>
    intro acc
    by_cases ha : valid_pmatch a = true
    · rw [List.filter_cons_of_pos ha]
      simp only [List.foldl_cons]
      exact ih _
    · have ha' : valid_pmatch a = false := by simpa using ha
      rw [List.filter_cons_of_neg (by simp [ha'])]
      simp only [List.foldl_cons]
      rw [pricingStep_skip db acc a ha']
      exact ih _

/-- C10. Entries of the matches list that are null or carry no truthy
identifier under any of the keys `product_id`, `sku`, `Product_ID` are
silently skipped by `calculate_tender_pricing`: every priced field of the
result (the cost lines, base total, margin, material total and product
count) is the same as if those entries had been removed up front, so such
entries contribute nothing, produce no per-product cost line, and never
make the operation fail, while the remaining entries are priced
normally. -/
theorem C10_invalid_entries_skipped (db : List Product) (ms : List (Option PMatch)) (draw : ℚ) :
    (calculate_tender_pricing db ms draw).product_costs
        = (calculate_tender_pricing db (ms.filter valid_pmatch) draw).product_costs ∧
    (calculate_tender_pricing db ms draw).base_total
        = (calculate_tender_pricing db (ms.filter valid_pmatch) draw).base_total ∧
    (calculate_tender_pricing db ms draw).margin_percentage
        = (calculate_tender_pricing db (ms.filter valid_pmatch) draw).margin_percentage ∧
    (calculate_tender_pricing db ms draw).final_price
        = (calculate_tender_pricing db (ms.filter valid_pmatch) draw).final_price ∧
    (calculate_tender_pricing db ms draw).products_analyzed
        = (calculate_tender_pricing db (ms.filter valid_pmatch) draw).products_analyzed := by
  by_cases hm : ms = []
  · subst hm
    exact ⟨rfl, rfl, rfl, rfl, rfl⟩
  · have hfold := pricingFold_filter db ms ([], 0)
    by_cases hf : ms.filter valid_pmatch = []
    · have hfold0 : ms.foldl (pricingStep db) ([], 0) = ([], 0) := by
        rw [← hfold, hf]
        rfl
      have hL : calculate_tender_pricing db ms draw
          = ⟨[], 0, 0, 0, some "Could not calculate any product costs", none⟩ := by
        unfold calculate_tender_pricing
        rw [if_neg hm, hfold0]
        rfl
      have hR : calculate_tender_pricing db (ms.filter valid_pmatch) draw
          = ⟨[], 0, 0, 0, some "No product recommendations provided", none⟩ := by
        unfold calculate_tender_pricing
        rw [if_pos hf]
      rw [hL, hR]
      exact ⟨rfl, rfl, rfl, rfl, rfl⟩
    · have hsame : calculate_tender_pricing db (ms.filter valid_pmatch) draw
          = calculate_tender_pricing db ms draw := by
        unfold calculate_tender_pricing
        rw [if_neg hm, if_neg hf, hfold]
      rw [hsame]
      exact ⟨rfl, rfl, rfl, rfl, rfl⟩

/-! ## Claim C8 — ranking, thresholding and truncation of the matcher -/

theorem orderedInsert_filter_score (x : MatchEntry) (q : ℚ) :
    ∀ l : List MatchEntry,
      (List.orderedInsert (fun a b => b.spec_match_percent ≤ a.spec_match_percent) x l).filter
          (fun e => e.spec_match_percent == q)
        = if x.spec_match_percent = q
            then x :: l.filter (fun e => e.spec_match_percent == q)
            else l.filter (fun e => e.spec_match_percent == q)
  | [] => by
      by_cases hx : x.spec_match_percent = q
      · simp [List.orderedInsert, hx]
      · simp [List.orderedInsert, hx]
  | y :: ys => by
      by_cases hr : y.spec_match_percent ≤ x.spec_match_percent
      · rw [show List.orderedInsert (fun a b => b.spec_match_percent ≤ a.spec_match_percent) x
              (y :: ys) = x :: y :: ys from by simp [List.orderedInsert, hr]]
        by_cases hx : x.spec_match_percent = q
        · simp [List.filter_cons, hx]
        · simp [List.filter_cons, hx]
      · rw [show List.orderedInsert (fun a b => b.spec_match_percent ≤ a.spec_match_percent) x
              (y :: ys)
            = y :: List.orderedInsert (fun a b => b.spec_match_percent ≤ a.spec_match_percent) x ys
            from by simp [List.orderedInsert, hr]]
        have hlt : x.spec_match_percent < y.spec_match_percent := not_le.mp hr
        by_cases hx : x.spec_match_percent = q
        · have hy : ¬(y.spec_match_percent = q) := by
            rw [← hx]
            exact ne_of_gt hlt
          simp [List.filter_cons, hx, hy, orderedInsert_filter_score x q ys]
        · simp [List.filter_cons, hx, orderedInsert_filter_score x q ys]

theorem insertionSort_filter_score (q : ℚ) :
    ∀ l : List MatchEntry,
      (l.insertionSort (fun a b => b.spec_match_percent ≤ a.spec_match_percent)).filter
          (fun e => e.spec_match_percent == q)
        = l.filter (fun e => e.spec_match_percent == q)
  | [] => rfl
  | a :: l => by
      rw [show (a :: l).insertionSort (fun a b => b.spec_match_percent ≤ a.spec_match_percent)
          = List.orderedInsert (fun a b => b.spec_match_percent ≤ a.spec_match_percent) a
              (l.insertionSort (fun a b => b.spec_match_percent ≤ a.spec_match_percent))
          from rfl]
      rw [orderedInsert_filter_score, insertionSort_filter_score q l]
      by_cases hx : a.spec_match_percent = q
      · simp [List.filter_cons, hx]
      · simp [List.filter_cons, hx]

theorem mem_candidate_matches {db : List Product} {t : String} {m : ℚ} {e : MatchEntry}
    (h : e ∈ candidate_matches db t m) :
    m ≤ e.spec_match_percent ∧ ∃ p ∈ db,
      e = mkMatchEntry p (calculate_weighted_score (calculate_component_scores p t))
            (calculate_component_scores p t) := by
  rcases List.mem_filterMap.mp h with ⟨p, hp, hf⟩
  dsimp only at hf
  by_cases hw : m ≤ calculate_weighted_score (calculate_component_scores p t)
  · rw [if_pos hw] at hf
    cases hf
    exact ⟨hw, p, hp, rfl⟩
  · rw [if_neg hw] at hf
    cases hf

/-- C8. For every catalog, brief, threshold and result cap, the matcher
output (i) contains only entries whose weighted total is at least
`min_score`, (ii) consists of entries built from catalog products with
their weighted component score, (iii) is sorted descending by weighted
total, (iv) is stable — for every score value, the entries carrying it
form a prefix of the threshold-filtered catalog-order candidate list, so
ties keep catalog order — (v) has length at most `max_results`, and
(vi)-(ix) it is the empty list (not an error) when the brief is missing,
the catalog is empty, the flattened requirement text is empty, or no
product clears the threshold. -/
theorem C8_matcher_properties (db : List Product) (brief : Option TechnicalBrief)
    (min_score : ℚ) (max_results : ℕ) :
    (∀ e ∈ match_products_advanced db brief min_score max_results,
        min_score ≤ e.spec_match_percent) ∧
    (∀ e ∈ match_products_advanced db brief min_score max_results,
        ∃ p ∈ db, e = mkMatchEntry p
          (calculate_weighted_score (calculate_component_scores p (flatten_rfp_specs brief)))
          (calculate_component_scores p (flatten_rfp_specs brief))) ∧
    List.Pairwise (fun a b => b.spec_match_percent ≤ a.spec_match_percent)
      (match_products_advanced db brief min_score max_results) ∧
    (∀ q : ℚ,
      (match_products_advanced db brief min_score max_results).filter
          (fun e => e.spec_match_percent == q)
        <+: (candidate_matches db (flatten_rfp_specs brief) min_score).filter
          (fun e => e.spec_match_percent == q)) ∧
    (match_products_advanced db brief min_score max_results).length ≤ max_results ∧
    (brief = none → match_products_advanced db brief min_score max_results = []) ∧
    (db = [] → match_products_advanced db brief min_score max_results = []) ∧
    (flatten_rfp_specs brief = "" → match_products_advanced db brief min_score max_results = []) ∧
    (candidate_matches db (flatten_rfp_specs brief) min_score = [] →
      match_products_advanced db brief min_score max_results = []) := by
  haveI hTot : IsTotal MatchEntry (fun a b => b.spec_match_percent ≤ a.spec_match_percent) :=
    ⟨fun a b => le_total b.spec_match_percent a.spec_match_percent⟩
  haveI hTrans : IsTrans MatchEntry (fun a b => b.spec_match_percent ≤ a.spec_match_percent) :=
    ⟨fun _ _ _ hab hbc => le_trans hbc hab⟩
  cases brief with
  | none =>
    have hout : match_products_advanced db none min_score max_results = [] := rfl
    refine ⟨?_, ?_, ?_, ?_, ?_, ?_, ?_, ?_, ?_⟩ <;>
      simp [hout, List.nil_prefix]
  | some b =>
    by_cases hdb : db = []
    · have hout : match_products_advanced db (some b) min_score max_results = [] := by
        unfold match_products_advanced
        dsimp only
        rw [if_pos hdb]
      refine ⟨?_, ?_, ?_, ?_, ?_, ?_, ?_, ?_, ?_⟩ <;>
        simp [hout, List.nil_prefix]
    · by_cases hrfp : flatten_rfp_specs (some b) = ""
      · have hout : match_products_advanced db (some b) min_score max_results = [] := by
          unfold match_products_advanced
          dsimp only
          rw [if_neg hdb, if_pos hrfp]
        refine ⟨?_, ?_, ?_, ?_, ?_, ?_, ?_, ?_, ?_⟩ <;>
          simp [hout, List.nil_prefix]
      · have hout : match_products_advanced db (some b) min_score max_results
            = (sortByScoreDesc
                (candidate_matches db (flatten_rfp_specs (some b)) min_score)).take max_results := by
          unfold match_products_advanced
          dsimp only
          rw [if_neg hdb, if_neg hrfp]
        have hmem : ∀ e ∈ match_products_advanced db (some b) min_score max_results,
            e ∈ candidate_matches db (flatten_rfp_specs (some b)) min_score := by
          intro e he
          rw [hout] at he
          have h1 := (List.take_sublist _ _).subset he
          unfold sortByScoreDesc at h1
          exact (List.mem_insertionSort _).mp h1
        refine ⟨?_, ?_, ?_, ?_, ?_, ?_, ?_, ?_, ?_⟩
        · exact fun e he => (mem_candidate_matches (hmem e he)).1
        · exact fun e he => (mem_candidate_matches (hmem e he)).2
        · rw [hout]
          exact List.Pairwise.sublist (List.take_sublist _ _)
            (List.sorted_insertionSort _ _)
        · intro q
          rw [hout]
          have h1 := List.IsPrefix.filter (fun e => e.spec_match_percent == q)
            (List.take_prefix max_results
              (sortByScoreDesc (candidate_matches db (flatten_rfp_specs (some b)) min_score)))
          unfold sortByScoreDesc at h1
          rwa [insertionSort_filter_score] at h1
        · rw [hout, List.length_take]
          exact min_le_left _ _
        · intro h
          cases h
        · intro h
          exact absurd h hdb
        · intro h
          exact absurd h hrfp
        · intro hpre
          rw [hout, hpre, show sortByScoreDesc [] = [] from rfl, List.take_nil]

/-- C8 witness: the matcher run on the mock catalog against a concrete
brief returns at most 10 entries. -/
theorem C8_witness :
    (match_products_advanced mock_database (some c8ex_brief) 30 10).length ≤ 10 :=
  (C8_matcher_properties mock_database (some c8ex_brief) 30 10).2.2.2.2.1

/-! ## Claim C7 — the composite final score and grading -/

theorem round2_clamp_range {x : ℚ} (h0 : 0 ≤ x) (h100 : x ≤ 100) :
    0 ≤ round2 x ∧ round2 x ≤ 100 :=
  round2_mem_Icc h0 h100 round2_zero round2_hundred

theorem score_technical_match_range (expQ : ℚ → ℚ) (hexp : ∀ q, 0 < expQ q)
    (ms : List (Option ScoreMatch)) :
    0 ≤ score_technical_match expQ ms ∧ score_technical_match expQ ms ≤ 100 := by
  unfold score_technical_match
  by_cases h1 : ms = []
  · rw [if_pos h1]
    norm_num
  · rw [if_neg h1]
    dsimp only
    by_cases h2 : (ms.filterMap id).filter (fun m => 0 < m.spec_match_percent) = []
    · rw [if_pos h2]
      norm_num
    · rw [if_neg h2]
      have hts : 0 ≤ (((ms.filterMap id).filter (fun m => 0 < m.spec_match_percent)).take 5
          |>.enum.map (fun im => im.2.spec_match_percent * expQ (-(3/10) * (im.1 : ℚ)))).sum := by
        apply List.sum_nonneg
        intro x hx
        rcases List.mem_map.mp hx with ⟨im, him, hfa⟩
        obtain ⟨i, m⟩ := im
        have hmem := List.mem_enum him
        have hmtop : m ∈ ((ms.filterMap id).filter (fun m => 0 < m.spec_match_percent)).take 5 := by
          rw [hmem.2]
          exact List.getElem_mem hmem.1
        have hmval : m ∈ (ms.filterMap id).filter (fun m => 0 < m.spec_match_percent) :=
          (List.take_sublist _ _).subset hmtop
        have hpos : 0 < m.spec_match_percent := by
          simpa using (List.mem_filter.mp hmval).2
        rw [← hfa]
        exact mul_nonneg (le_of_lt hpos) (le_of_lt (hexp _))
      have havg : 0 ≤ (if 0 < (((ms.filterMap id).filter (fun m => 0 < m.spec_match_percent)).take 5
            |>.enum.map (fun im => expQ (-(3/10) * (im.1 : ℚ)))).sum
          then (((ms.filterMap id).filter (fun m => 0 < m.spec_match_percent)).take 5
            |>.enum.map (fun im => im.2.spec_match_percent * expQ (-(3/10) * (im.1 : ℚ)))).sum
            / (((ms.filterMap id).filter (fun m => 0 < m.spec_match_percent)).take 5
            |>.enum.map (fun im => expQ (-(3/10) * (im.1 : ℚ)))).sum
          else 0) := by
        split_ifs with htw
        · exact div_nonneg hts (le_of_lt htw)
        · exact le_refl 0
      have hg : (0:ℚ) ≤ ((((ms.filterMap id).filter
          (fun m => 0 < m.spec_match_percent)).filter
          (fun m => 70 ≤ m.spec_match_percent)).length : ℚ) := Nat.cast_nonneg _
      have hmult : 0 ≤ min (1 + (((((ms.filterMap id).filter
            (fun m => 0 < m.spec_match_percent)).filter
            (fun m => 70 ≤ m.spec_match_percent)).length : ℚ) - 1) * (5/100)) (115/100) := by
        apply le_min
        · nlinarith
        · norm_num
      exact round2_clamp_range (le_min (mul_nonneg havg hmult) (by norm_num))
        (min_le_right _ _)

theorem score_price_competitiveness_range (expQ : ℚ → ℚ) (db : List Product)
    (estimated_price : ℚ) (ms : List (Option ScoreMatch)) :
    0 ≤ score_price_competitiveness expQ db estimated_price ms ∧
      score_price_competitiveness expQ db estimated_price ms ≤ 100 := by
  unfold score_price_competitiveness
  by_cases h : estimated_price ≤ 0 ∨ ms = []
  · rw [if_pos h]
    norm_num
  · rw [if_neg h]
    dsimp only
    exact round2_clamp_range (le_max_left 0 _) (max_le (by norm_num) (min_le_right _ _))

theorem score_delivery_capability_range (ms : List (Option ScoreMatch)) (deadline : Option Int)
    (hlead : ∀ m ∈ ms.filterMap id, 0 ≤ m.lead_time_days) :
    0 ≤ score_delivery_capability ms deadline ∧ score_delivery_capability ms deadline ≤ 100 := by
  unfold score_delivery_capability
  by_cases h : ms = []
  · rw [if_pos h]
    norm_num
  · rw [if_neg h]
    dsimp only
    have havg : 0 ≤ (if (ms.filterMap id).map (fun m => m.lead_time_days) = [] then 0
        else ((ms.filterMap id).map (fun m => m.lead_time_days)).sum
          / (((ms.filterMap id).map (fun m => m.lead_time_days)).length : ℚ)) := by
      split_ifs with hl
      · exact le_refl 0
      · apply div_nonneg
        · apply List.sum_nonneg
          intro x hx
          rcases List.mem_map.mp hx with ⟨m, hm, hfa⟩
          rw [← hfa]
          exact hlead m hm
        · exact Nat.cast_nonneg _
    have hbase : max 0 (100 - (if (ms.filterMap id).map (fun m => m.lead_time_days) = [] then 0
        else ((ms.filterMap id).map (fun m => m.lead_time_days)).sum
          / (((ms.filterMap id).map (fun m => m.lead_time_days)).length : ℚ)) * (11/10)) ≤ 100 := by
      apply max_le (by norm_num)
      nlinarith
    have hpen : (0:ℚ) ≤ (match deadline with
        | none => 0
        | some d =>
          if 0 < d then
            if ((d : ℚ) - (if (ms.filterMap id).map (fun m => m.lead_time_days) = [] then 0
                else ((ms.filterMap id).map (fun m => m.lead_time_days)).sum
                  / (((ms.filterMap id).map (fun m => m.lead_time_days)).length : ℚ))) < 0 then 50
            else if ((d : ℚ) - (if (ms.filterMap id).map (fun m => m.lead_time_days) = [] then 0
                else ((ms.filterMap id).map (fun m => m.lead_time_days)).sum
                  / (((ms.filterMap id).map (fun m => m.lead_time_days)).length : ℚ))) < 14 then 30
            else if ((d : ℚ) - (if (ms.filterMap id).map (fun m => m.lead_time_days) = [] then 0
                else ((ms.filterMap id).map (fun m => m.lead_time_days)).sum
                  / (((ms.filterMap id).map (fun m => m.lead_time_days)).length : ℚ))) < 30 then 15
            else 0
          else 0) := by
      cases deadline with
      | none => norm_num
      | some d =>
        dsimp only
        split_ifs <;> norm_num
    refine round2_clamp_range (le_max_left 0 _) (max_le (by norm_num) ?_)
    refine le_trans (by linarith) hbase

theorem score_compliance_ok {db : List Product} {ms : List (Option ScoreMatch)}
    {c : ComplianceResult} (h : score_compliance db ms = Except.ok c) :
    c = ⟨0, 0, 0, 0⟩ := by
  unfold score_compliance at h
  by_cases h1 : ms = []
  · rw [if_pos h1] at h
    simp only [Except.ok.injEq] at h
    exact h.symm
  · rw [if_neg h1] at h
    cases hcl : complianceLoop db ms with
    | ok u =>
      rw [hcl] at h
      simp only [Except.map, Except.ok.injEq] at h
      exact h.symm
    | error e =>
      rw [hcl] at h
      simp [Except.map] at h

theorem score_risk_assessment_range (sqrtQ : ℚ → ℚ) (hsqrt : ∀ q, 0 ≤ sqrtQ q)
    (db : List Product) (ms : List (Option ScoreMatch)) :
    0 ≤ score_risk_assessment sqrtQ db ms ∧ score_risk_assessment sqrtQ db ms ≤ 100 := by
  unfold score_risk_assessment
  by_cases h : ms = []
  · rw [if_pos h]
    norm_num
  · rw [if_neg h]
    dsimp only
    have havail0 : (0:ℚ) ≤ min ((ms.length : ℚ) * 10) 50 :=
      le_min (mul_nonneg (Nat.cast_nonneg _) (by norm_num)) (by norm_num)
    have havail1 : min ((ms.length : ℚ) * 10) 50 ≤ 50 := min_le_right _ _
    have hdiv0 : (0:ℚ) ≤ min (((((ms.filterMap id).map (fun m => m.category)).dedup).length : ℚ)
        * 10) 30 := le_min (mul_nonneg (Nat.cast_nonneg _) (by norm_num)) (by norm_num)
    have hdiv1 : min (((((ms.filterMap id).map (fun m => m.category)).dedup).length : ℚ) * 10) 30
        ≤ 30 := min_le_right _ _
    set moqs := ms.filterMap (fun m? =>
      m?.bind (fun m =>
        (score_get_pid m).bind (fun pid =>
          (db.find? (fun p => p.Product_ID == pid)).map (fun p => p.Min_Order_Qty_Meters))))
      with hmoqs
    set cv := (if 0 < moqs.sum / (moqs.length : ℚ)
        then sqrtQ ((moqs.map (fun x =>
            (x - moqs.sum / (moqs.length : ℚ)) ^ 2)).sum / (moqs.length : ℚ))
          / (moqs.sum / (moqs.length : ℚ))
        else 0) with hcvdef
    have hcv : (0:ℚ) ≤ cv := by
      rw [hcvdef]
      split_ifs with hmean
      · exact div_nonneg (hsqrt _) (le_of_lt hmean)
      · exact le_refl 0
    have hcons0 : (0:ℚ) ≤ (if 1 < moqs.length then max 0 (20 - cv * 40) else 20) := by
      split_ifs
      · exact le_max_left _ _
      · norm_num
    have hcons1 : (if 1 < moqs.length then max 0 (20 - cv * 40) else 20) ≤ 20 := by
      split_ifs
      · exact max_le (by norm_num) (by nlinarith)
      · norm_num
    exact round2_clamp_range (by linarith) (by linarith)

/-- C7. Whenever the composite scorer returns (its compliance step does
not raise), the reported final score equals the weighted sum of the five
component scores — weights .35/.25/.15/.15/.10 — rounded to two decimals,
and lies in [0, 100] for every catalog, matches list with nonnegative
lead times, price and deadline (and every positive `math.exp` /
nonnegative `math.sqrt` interpretation); the grade is taken from the
unrounded weighted sum with exact inclusive lower bounds: a weighted sum
of 85.00 grades "A+" and 84.99 grades "A" (likewise ≥75 A, ≥65 B+,
≥55 B, ≥45 C, else D). -/
theorem C7_final_score (expQ sqrtQ : ℚ → ℚ) (hexp : ∀ q, 0 < expQ q)
    (hsqrt : ∀ q, 0 ≤ sqrtQ q) (db : List Product) (ms : List (Option ScoreMatch))
    (estimated_price : ℚ) (rfp_deadline : Option Int)
    (hlead : ∀ m ∈ ms.filterMap id, 0 ≤ m.lead_time_days) (r : ScoreResult)
    (h : calculate_final_score expQ sqrtQ db ms estimated_price rfp_deadline = Except.ok r) :
    r.final_score = round2 (weighted_final r.component_scores) ∧
    0 ≤ r.final_score ∧ r.final_score ≤ 100 ∧
    r.grade = gradeOf (weighted_final r.component_scores) ∧
    (weighted_final r.component_scores = 85 → r.grade = "A+") ∧
    (weighted_final r.component_scores = 8499/100 → r.grade = "A") := by
  unfold calculate_final_score at h
  cases hc : score_compliance db ms with
  | error e =>
    rw [hc] at h
    simp [Except.map] at h
  | ok comp =>
    rw [hc] at h
    have hcomp := score_compliance_ok hc
    subst hcomp
    simp only [Except.map, Except.ok.injEq] at h
    subst h
    have ht := score_technical_match_range expQ hexp ms
    have hp := score_price_competitiveness_range expQ db estimated_price ms
    have hd := score_delivery_capability_range ms rfp_deadline hlead
    have hr := score_risk_assessment_range sqrtQ hsqrt db ms
    have hc0 : (⟨0, 0, 0, 0⟩ : ComplianceResult).compliance_score = (0:ℚ) := rfl
    have hg85 : gradeOf 85 = "A+" := by
      unfold gradeOf
      rw [if_pos (by norm_num)]
    have hg8499 : gradeOf (8499/100) = "A" := by
      unfold gradeOf
      rw [if_neg (by norm_num), if_pos (by norm_num)]
    refine ⟨rfl, ?_, ?_, rfl, ?_, ?_⟩
    · dsimp only [weighted_final]
      exact (round2_clamp_range (by linarith [ht.1, hp.1, hd.1, hr.1])
        (by linarith [ht.2, hp.2, hd.2, hr.2])).1
    · dsimp only [weighted_final]
      exact (round2_clamp_range (by linarith [ht.1, hp.1, hd.1, hr.1])
        (by linarith [ht.2, hp.2, hd.2, hr.2])).2
    · intro heq
      show gradeOf (weighted_final
          ⟨score_technical_match expQ ms,
           score_price_competitiveness expQ db estimated_price ms,
           score_delivery_capability ms rfp_deadline,
           (⟨0, 0, 0, 0⟩ : ComplianceResult).compliance_score,
           score_risk_assessment sqrtQ db ms⟩) = "A+"
      have heq2 : weighted_final
          ⟨score_technical_match expQ ms,
           score_price_competitiveness expQ db estimated_price ms,
           score_delivery_capability ms rfp_deadline,
           (⟨0, 0, 0, 0⟩ : ComplianceResult).compliance_score,
           score_risk_assessment sqrtQ db ms⟩ = 85 := heq
      rw [heq2, hg85]
    · intro heq
      show gradeOf (weighted_final
          ⟨score_technical_match expQ ms,
           score_price_competitiveness expQ db estimated_price ms,
           score_delivery_capability ms rfp_deadline,
           (⟨0, 0, 0, 0⟩ : ComplianceResult).compliance_score,
           score_risk_assessment sqrtQ db ms⟩) = "A"
      have heq2 : weighted_final
          ⟨score_technical_match expQ ms,
           score_price_competitiveness expQ db estimated_price ms,
           score_delivery_capability ms rfp_deadline,
           (⟨0, 0, 0, 0⟩ : ComplianceResult).compliance_score,
           score_risk_assessment sqrtQ db ms⟩ = 8499/100 := heq
      rw [heq2, hg8499]

/-- C7 witness: a concrete run (one match not in the catalog, price 100,
no deadline, `expQ = 1`, `sqrtQ = 0`) returns, and its reported final
score lies in [0, 100]. -/
theorem C7_witness :
    c7ex_call = Except.ok c7ex_result ∧
    0 ≤ c7ex_result.final_score ∧ c7ex_result.final_score ≤ 100 := by
  have hok : c7ex_call = Except.ok c7ex_result := rfl
  have h := C7_final_score expOne sqrtZero (fun _ => one_pos) (fun _ => le_refl 0)
    mock_database c7ex_matches 100 none
    (by intro m hm; simp [c7ex_matches] at hm; subst hm; norm_num)
    c7ex_result hok
  exact ⟨hok, h.2.1, h.2.2.1⟩
